import Mathlib

/-!
Verification of the Live-Photo repository against its specification.

The definitions below are shallow embeddings of the TypeScript sources:
  - `calculateAspectRatio`   from src/lib/video-utils.ts
  - the compose trace model  from composeVideoWithDoodleCover in src/lib/video-utils.ts
  - `submitStylizeTask` / `pollStylizeResult` from the Wavespeed client
  - the stylize / upload / process / status route handlers
  - the daily rate-limit counters (localStorage and KV variants)

Numbers are modelled with `Nat`, `Int` and `Rat`; JavaScript string
truthiness (empty string is falsy) is modelled explicitly where the source
relies on it.
-/

namespace LivePhoto

/-! ### Aspect ratio (src/lib/video-utils.ts, calculateAspectRatio) -/

/-- Euclidean gcd exactly as written inline in the source:
`gcd(a, b) = b === 0 ? a : gcd(b, a % b)`. -/
def jsGcd (a b : ℕ) : ℕ :=
  if b = 0 then a else jsGcd b (a % b)
termination_by b
decreasing_by exact Nat.mod_lt _ (Nat.pos_of_ne_zero (by assumption))

/-- `calculateAspectRatio` from src/lib/video-utils.ts: reduce by the gcd,
then compare the reduced ratio against 16/9, 9/16, 4/3 (tolerance 0.1) and
1/1 (tolerance 0.01) in that order; otherwise return the literal reduced
ratio string. -/
def calculateAspectRatio (width height : ℕ) : String :=
  let divisor := jsGcd width height
  let ratioW := width / divisor
  let ratioH := height / divisor
  let r : ℚ := (ratioW : ℚ) / (ratioH : ℚ)
  if |r - 16 / 9| < 1 / 10 then "16:9"
  else if |r - 9 / 16| < 1 / 10 then "9:16"
  else if |r - 4 / 3| < 1 / 10 then "4:3"
  else if |r - 1| < 1 / 100 then "1:1"
  else toString ratioW ++ ":" ++ toString ratioH

/-- The canonical targets in the order the spec lists them:
(target ratio, tolerance, label). -/
def aspectRatioTargets : List (ℚ × ℚ × String) :=
  [(16 / 9, (1 / 10, "16:9")), (9 / 16, (1 / 10, "9:16")),
   (4 / 3, (1 / 10, "4:3")), (1, (1 / 100, "1:1"))]

/-- First target of the list whose tolerance contains `r` (first match
wins, in list order). -/
def firstMatch (r : ℚ) : List (ℚ × ℚ × String) → Option String
  | [] => none
  | t :: ts => if |r - t.1| < t.2.1 then some t.2.2 else firstMatch r ts

/-- Aspect-ratio computation written from the spec words (§4.1): reduce by
the gcd, take the first target in `aspectRatioTargets` within its
tolerance, otherwise emit the literal reduced ratio. -/
def aspectRatioSpec (width height : ℕ) : String :=
  let divisor := Nat.gcd width height
  let rw := width / divisor
  let rh := height / divisor
  (firstMatch ((rw : ℚ) / (rh : ℚ)) aspectRatioTargets).getD
    (toString rw ++ ":" ++ toString rh)

/-! ### Video composition trace (composeVideoWithDoodleCover) -/

/-- One observable action of `composeVideoWithDoodleCover`: a progress
callback invocation, a canvas draw, a paced wait, or a recorder
start/stop. -/
inductive ComposeEvent where
  | progress (p : ℚ)
  | drawCover
  | fadeDraw (alpha : ℚ)
  | drawVideo (alpha : ℚ)
  | wait (ms : ℚ)
  | startRec
  | stopRec
deriving DecidableEq

/-- `const coverFrames = Math.floor(coverDuration * fps)` with the source's
hard-coded `fps = 30`. -/
def coverFrames (coverDuration : ℚ) : ℕ := (⌊coverDuration * 30⌋).toNat

/-- One iteration of the phase-1 loop: draw the cover, overlay the fade-in
for the first `fps * 0.3` iterations, wait `1000 / fps` ms, then report
progress `30 + (i / coverFrames) * 20`. -/
def coverTick (cf : ℕ) (i : ℕ) : List ComposeEvent :=
  [ComposeEvent.drawCover]
    ++ (if (i : ℚ) < 30 * (3 / 10)
        then [ComposeEvent.fadeDraw ((i : ℚ) / (30 * (3 / 10)))] else [])
    ++ [ComposeEvent.wait (1000 / 30),
        ComposeEvent.progress (30 + ((i : ℚ) / (cf : ℚ)) * 20)]

/-- One iteration of the phase-2 loop: cover as background, the live video
frame on top at alpha `i / transitionFrames`, a paced wait, then progress
`50 + (i / transitionFrames) * 10`; `transitionFrames = floor(0.5 * 30) = 15`. -/
def transitionTick (i : ℕ) : List ComposeEvent :=
  [ComposeEvent.drawCover, ComposeEvent.drawVideo ((i : ℚ) / 15),
   ComposeEvent.wait (1000 / 30),
   ComposeEvent.progress (50 + ((i : ℚ) / 15) * 10)]

/-- One `captureFrame` animation tick in phase 3 when the video is at
`currentTime = t`: draw the frame, then progress `60 + (t / duration) * 35`. -/
def playbackTick (duration : ℚ) (t : ℚ) : List ComposeEvent :=
  [ComposeEvent.drawVideo 1, ComposeEvent.progress (60 + (t / duration) * 35)]

/-- Setup section of the run: progress 5 (start), 10 (cover loaded),
20 (video loaded), recorder start, progress 30. -/
def setupTrace : List ComposeEvent :=
  [ComposeEvent.progress 5, ComposeEvent.progress 10, ComposeEvent.progress 20,
   ComposeEvent.startRec, ComposeEvent.progress 30]

/-- Phase 1 (cover hold) of the run. -/
def phase1Trace (coverDuration : ℚ) : List ComposeEvent :=
  ((List.range (coverFrames coverDuration)).map
    (coverTick (coverFrames coverDuration))).flatten

/-- Phase 2 (transition from cover to video). -/
def phase2Trace : List ComposeEvent :=
  ((List.range 15).map transitionTick).flatten

/-- Phase 3 (playback capture), parameterized by the source duration and
the monotone list of `currentTime` samples observed at animation ticks. -/
def phase3Trace (duration : ℚ) (times : List ℚ) : List ComposeEvent :=
  (times.map (playbackTick duration)).flatten

/-- Full event trace of a successfully resolving
`composeVideoWithDoodleCover` run. The final `progress 100` is emitted by
the recorder `onstop` handler just before the promise resolves. -/
def composeTrace (coverDuration duration : ℚ) (times : List ℚ) : List ComposeEvent :=
  setupTrace ++ phase1Trace coverDuration
    ++ [ComposeEvent.progress 50] ++ phase2Trace
    ++ [ComposeEvent.progress 60] ++ phase3Trace duration times
    ++ [ComposeEvent.stopRec, ComposeEvent.progress 100]

/-- The progress payload of an event, when it is a progress callback. -/
def progOf : ComposeEvent → Option ℚ
  | ComposeEvent.progress p => some p
  | _ => none

/-- Projection of a trace to the values passed to `onProgress`. -/
def progressValues (trace : List ComposeEvent) : List ℚ :=
  trace.filterMap progOf

/-- Recognizer for paced-wait events. -/
def isWaitEv : ComposeEvent → Bool
  | ComposeEvent.wait _ => true
  | _ => false

/-- Recognizer for full-frame cover draws. -/
def isDrawCoverEv : ComposeEvent → Bool
  | ComposeEvent.drawCover => true
  | _ => false

/-! ### Wavespeed stylization client (src/unnamed/part_001) -/

/-- JavaScript string truthiness: `undefined` and the empty string are
falsy. -/
def strTruthy : Option String → Bool
  | none => false
  | some s => !s.isEmpty

/-- JavaScript `a || b` on string-valued fields. -/
def jsOr (a b : Option String) : Option String :=
  if strTruthy a then a else b

/-- The nested `data` object of a Wavespeed provider response. -/
structure WaveData where
  id : Option String
  status : Option String
  outputs : Option (List String)
  error : Option String
deriving DecidableEq

/-- A Wavespeed provider response body with every field name the client
recognizes. -/
structure WaveResponse where
  data : Option WaveData
  request_id : Option String
  id : Option String
  requestId : Option String
  prediction_id : Option String
  predictionId : Option String
deriving DecidableEq

/-- The job-id extraction of the first `submitStylizeTask` variant:
`data.data.id` when truthy, else the fallback chain
`request_id || id || requestId || prediction_id || predictionId`. -/
def extractRequestId (r : WaveResponse) : Option String :=
  let fallback :=
    jsOr r.request_id (jsOr r.id (jsOr r.requestId
      (jsOr r.prediction_id r.predictionId)))
  match r.data with
  | some d => if strTruthy d.id then d.id else fallback
  | none => fallback

/-- Whether any recognized job-id field carries a truthy value. -/
def anyRecognizedId (r : WaveResponse) : Bool :=
  strTruthy (r.data.bind (fun d => d.id)) || strTruthy r.request_id
    || strTruthy r.id || strTruthy r.requestId
    || strTruthy r.prediction_id || strTruthy r.predictionId

/-- `(data.data.status as ...) || 'pending'` of the first submit variant. -/
def extractedStatus (r : WaveResponse) : String :=
  match r.data with
  | some d =>
    match d.status with
    | some s => if s.isEmpty then "pending" else s
    | none => "pending"
  | none => "pending"

/-- Result URL surfaced by the first submit variant when the task completed
synchronously: `status === 'completed' && outputs && outputs.length > 0`. -/
def extractResultUrl (r : WaveResponse) : Option String :=
  match r.data with
  | some d =>
    if extractedStatus r = "completed" then
      match d.outputs with
      | some (u :: _) => some u
      | _ => none
    else none
  | none => none

/-- Error surfaced by the first submit variant when the task failed
synchronously. -/
def extractTaskError (r : WaveResponse) : Option String :=
  match r.data with
  | some d =>
    if extractedStatus r = "failed" then
      if strTruthy d.error then d.error else none
    else none
  | none => none

/-- Normalized task returned by `submitStylizeTask`. -/
structure StylizeTaskResponse where
  requestId : String
  status : String
  resultUrl : Option String
  error : Option String
deriving DecidableEq

/-- First `submitStylizeTask` variant of src/unnamed/part_001, as a
function of the HTTP status code and parsed body: non-2xx throws, a
missing/falsy job id throws, otherwise the normalized task (with any
synchronous completion surfaced) is returned. -/
def submitStylizeTask (statusCode : ℕ) (resp : WaveResponse) :
    Except String StylizeTaskResponse :=
  if statusCode < 200 ∨ 300 ≤ statusCode then
    Except.error ("Wavespeed API error: " ++ toString statusCode)
  else
    match extractRequestId resp with
    | none => Except.error "No requestId returned from Wavespeed API"
    | some s =>
      if s.isEmpty then Except.error "No requestId returned from Wavespeed API"
      else Except.ok (StylizeTaskResponse.mk s (extractedStatus resp)
        (extractResultUrl resp) (extractTaskError resp))

/-- Second `submitStylizeTask` variant (src/unnamed/part_001, lines
279-333): job id from `request_id || id || requestId`, status always
`pending`. -/
def submitStylizeTaskV2 (statusCode : ℕ) (resp : WaveResponse) :
    Except String StylizeTaskResponse :=
  if statusCode < 200 ∨ 300 ≤ statusCode then
    Except.error ("Wavespeed API error: " ++ toString statusCode)
  else
    match jsOr resp.request_id (jsOr resp.id resp.requestId) with
    | none => Except.error "No requestId returned from Wavespeed API"
    | some s =>
      if s.isEmpty then Except.error "No requestId returned from Wavespeed API"
      else Except.ok (StylizeTaskResponse.mk s "pending" none none)

/-- One poll result as parsed by `getStylizeResult`; the status is a raw
string because the source's `as`-cast does not validate it. -/
structure StylizeResultResponse where
  status : String
  resultUrl : Option String
  error : Option String
deriving DecidableEq

/-- Terminal check of the poll loop:
`result.status === 'completed' || result.status === 'failed'`. -/
def isTerminalStatus (s : String) : Bool :=
  s = "completed" || s = "failed"

/-- Outcome of a `pollStylizeResult` run, instrumented with the number of
`getStylizeResult` calls issued and the total milliseconds slept. -/
structure PollRun where
  outcome : Except String StylizeResultResponse
  polls : ℕ
  sleepMs : ℕ

/-- Timeout error thrown when every attempt is non-terminal. -/
def pollTimeoutMsg : String :=
  "Stylization timeout - exceeded maximum polling attempts"

/-- The loop body of `pollStylizeResult`: at state `(fuel, k)` the loop has
already issued `k` polls and slept `k` times; each non-terminal result is
followed by one `intervalMs` sleep. -/
def pollLoop (poll : ℕ → StylizeResultResponse) (intervalMs : ℕ) :
    ℕ → ℕ → PollRun
  | 0, k => PollRun.mk (Except.error pollTimeoutMsg) k (k * intervalMs)
  | fuel + 1, k =>
    let r := poll k
    if isTerminalStatus r.status then
      PollRun.mk (Except.ok r) (k + 1) (k * intervalMs)
    else
      pollLoop poll intervalMs fuel (k + 1)

/-- `pollStylizeResult(requestId, maxAttempts, intervalMs)` over the stream
of successive `getStylizeResult` results. -/
def pollStylizeResult (poll : ℕ → StylizeResultResponse)
    (maxAttempts intervalMs : ℕ) : PollRun :=
  pollLoop poll intervalMs maxAttempts 0

/-- A concrete poll stream used to exercise the poll loop: pending on the
first attempt, completed on the second. -/
def pollWitnessStream : ℕ → StylizeResultResponse := fun k =>
  if k = 1 then StylizeResultResponse.mk "completed" (some "https://x/y.png") none
  else StylizeResultResponse.mk "pending" none none

/-! ### POST /api/stylize route (src/unnamed/part_003, first variant) -/

/-- Response of the stylize route: synchronous completion, synchronous
failure (HTTP 500), a pending task handed back for client polling, or a
submit error (HTTP 500). -/
inductive StylizeRouteResponse where
  | completedNow (requestId resultUrl frameUrl : String)
  | failedNow (error : String) (requestId : String)
  | pendingPoll (requestId status frameUrl : String)
  | serverError (msg : String)
deriving DecidableEq

/-- The branch of POST /api/stylize after `submitStylizeTask` returns,
paired with the number of poll (`getStylizeResult`) requests the handler
issues for the task — the handler never polls, so that count is 0 in every
branch; a poll happens later only in the `pendingPoll` case, driven by the
client. -/
def stylizeRoutePost (submitResult : Except String StylizeTaskResponse)
    (frameUrl : String) : StylizeRouteResponse × ℕ :=
  match submitResult with
  | Except.error e => (StylizeRouteResponse.serverError e, 0)
  | Except.ok t =>
    if t.status = "completed" ∧ strTruthy t.resultUrl then
      (StylizeRouteResponse.completedNow t.requestId (t.resultUrl.getD "") frameUrl, 0)
    else if t.status = "failed" then
      (StylizeRouteResponse.failedNow ((jsOr t.error (some "Stylization task failed")).getD "")
        t.requestId, 0)
    else
      (StylizeRouteResponse.pendingPoll t.requestId t.status frameUrl, 0)

/-- Scenario E response body:
`{data: {id: "abc", status: "completed", outputs: ["https://x/y.png"]}}`. -/
def scenarioEResponse : WaveResponse :=
  WaveResponse.mk
    (some (WaveData.mk (some "abc") (some "completed") (some ["https://x/y.png"]) none))
    none none none none none

/-- A provider response carrying no job id under any field. -/
def emptyWaveResponse : WaveResponse :=
  WaveResponse.mk none none none none none none

/-! ### VideoRecord and the process / status routes -/

/-- Persisted video record, with the fields the routes touch. -/
structure VideoRecord where
  id : String
  status : String
  coverUrl : Option String
  processedUrl : Option String
deriving DecidableEq

/-- `prisma.video.update({ where: { id }, data: { status: 'failed' } })`
over a list model of the table. -/
def markFailed (db : List VideoRecord) (vid : String) : List VideoRecord :=
  db.map (fun v =>
    if v.id = vid then VideoRecord.mk v.id "failed" v.coverUrl v.processedUrl
    else v)

/-- State of the Fetch `Request` body: a body can be read once; any call
to `request.json()` consumes it, and the first statement of the POST
/api/process try block is exactly such a call. -/
inductive BodyState where
  | unread (videoId : Option String)
  | consumed
deriving DecidableEq

/-- The `videoId` field produced by
`await request.json().catch(() => ({}))` in the catch handler: on an
already-consumed body `request.json()` rejects, the catch falls back to
`{}`, and no `videoId` is present. -/
def jsonReread : BodyState → Option String
  | BodyState.unread v => v
  | BodyState.consumed => none

/-- The catch handler of POST /api/process: re-read the request body
(falling back to `{}` when the read rejects), and if a truthy `videoId`
is present mark that record failed; always answer HTTP 500, never crash.
By the time this handler runs after a worker throw, the try block has
already consumed the body, so the state is `BodyState.consumed`. -/
def processCatchHandler (bodyState : BodyState)
    (db : List VideoRecord) : List VideoRecord × ℕ :=
  let recoveredVideoId := jsonReread bodyState
  if strTruthy recoveredVideoId then
    (markFailed db (recoveredVideoId.getD ""), 500)
  else
    (db, 500)

/-- Progress derived from a record status by GET /api/status/[id]. -/
def statusProgress (s : String) : ℕ :=
  if s = "uploaded" then 10
  else if s = "processing" then 50
  else if s = "completed" then 100
  else 0

/-- One event pushed on the SSE channel. -/
inductive SseEvent where
  | update (id : String) (status : String) (progress : ℕ)
      (coverUrl : Option String) (processedVideoUrl : Option String)
  | errMsg (msg : String)
deriving DecidableEq

/-- One sampling-timer tick of the status notifier: a missing record emits
an error event and stops; otherwise the status snapshot is emitted and the
timer stops exactly on a terminal status. The returned Bool is `true` when
the interval is cleared and the channel closed. -/
def notifierTick (lookup : Option VideoRecord) : List SseEvent × Bool :=
  match lookup with
  | none => ([SseEvent.errMsg "Video not found"], true)
  | some v =>
    ([SseEvent.update v.id v.status (statusProgress v.status) v.coverUrl v.processedUrl],
     v.status = "completed" || v.status = "failed")

/-- A notifier step including the abort listener: once the client's abort
signal has fired the interval is cleared and the channel closed with no
further event. -/
def notifierStep (aborted : Bool) (lookup : Option VideoRecord) :
    List SseEvent × Bool :=
  if aborted then ([], true) else notifierTick lookup

/-- A one-record table used to exercise the process-route catch handler. -/
def witnessDb : List VideoRecord :=
  [VideoRecord.mk "abc" "processing" none none]

/-! ### POST /api/upload route -/

/-- The multipart `video` field as the route sees it. -/
structure UploadFile where
  name : String
  type : String
  size : ℕ
deriving DecidableEq

/-- `allowedTypes` from src/app/api/upload/route.ts. -/
def allowedTypes : List String :=
  ["video/mp4", "video/quicktime", "video/webm",
   "image/heic", "image/heif", "application/octet-stream"]

/-- The `.heic`/`.heif` file-extension fallback. -/
def isHeicExt (name : String) : Bool :=
  name.toLower.endsWith ".heic" || name.toLower.endsWith ".heif"

/-- Success payload of the upload route. -/
structure UploadOk where
  url : String
  downloadUrl : String
  videoId : String
deriving DecidableEq

/-- POST /api/upload: 400 when the file is missing, over 500MB, or of a
type that is neither in `allowedTypes` nor saved by the extension
fallback; otherwise the blob URLs and the new record id are returned. The
blob store and database results are passed in as parameters. -/
def uploadPost (file : Option UploadFile)
    (blobUrl blobDownloadUrl newVideoId : String) :
    Except (ℕ × String) UploadOk :=
  match file with
  | none => Except.error (400, "No file provided")
  | some f =>
    if f.size > 500 * 1024 * 1024 then
      Except.error (400, "File too large. Maximum size is 500MB")
    else if ¬ allowedTypes.contains f.type ∧ ¬ isHeicExt f.name then
      Except.error (400, "Invalid file type. Supported: MP4, MOV, WebM, HEIC (iOS Live Photos)")
    else
      Except.ok (UploadOk.mk blobUrl blobDownloadUrl newVideoId)

/-! ### Daily rate-limit counters (src/unnamed/part_000 and part_002) -/

/-- Stored localStorage record `{date, count}`. -/
structure ApiCallRecord where
  date : String
  count : ℕ
deriving DecidableEq

/-- `getRecord()` of the localStorage variant: a missing or unparseable
stored value falls back to `{date: today, count: 0}`. -/
def getRecordLS (stored : Option ApiCallRecord) (today : String) : ApiCallRecord :=
  match stored with
  | none => ApiCallRecord.mk today 0
  | some r => r

/-- `getRemainingCalls()` of the localStorage variant: the full limit 100
on a stale-dated record, else `Math.max(0, 100 - count)`. -/
def getRemainingCallsLS (stored : Option ApiCallRecord) (today : String) : ℤ :=
  let record := getRecordLS stored today
  if record.date ≠ today then 100
  else max 0 (100 - (record.count : ℤ))

/-- The KV counter is stored under a key that embeds today's date, so a
count recorded on another day is invisible to today's lookup. -/
def kvLookupToday (store : Option (String × ℕ)) (today : String) : Option ℕ :=
  match store with
  | some rec => if rec.1 = today then some rec.2 else none
  | none => none

/-- `getRemainingCalls()` of the KV variant: the full limit 100 when the
backend is unreachable, else `Math.max(0, 100 - (await kv.get(key) || 0))`
against today's key. -/
def getRemainingCallsKV (backendUp : Bool) (store : Option (String × ℕ))
    (today : String) : ℤ :=
  if ¬ backendUp then 100
  else max 0 (100 - ((kvLookupToday store today).getD 0 : ℤ))

/-! ## Theorems -/

theorem jsGcd_eq_gcd : ∀ b a, jsGcd a b = Nat.gcd a b := by
  intro b
  induction b using Nat.strong_induction_on with
  | _ b ih =>
    intro a
    rw [jsGcd]
    by_cases hb : b = 0
    · subst hb; simp
    · rw [if_neg hb, ih (a % b) (Nat.mod_lt _ (Nat.pos_of_ne_zero hb)) b,
        Nat.gcd_comm b (a % b), ← Nat.gcd_rec b a, Nat.gcd_comm b a]

/-- Claim C3: for positive dimensions the aspect-ratio computation reduces
width:height by their GCD and returns the first match against 16/9, 9/16,
4/3 (tolerance 0.1) then 1/1 (tolerance 0.01), in that order, falling back
to the literal reduced ratio string; in particular 1920x1080 gives "16:9",
1080x1080 gives "1:1", 1080x1920 gives "9:16" and 640x480 gives "4:3". -/
theorem calculateAspectRatio_correct :
    (∀ w h : ℕ, calculateAspectRatio w h = aspectRatioSpec w h) ∧
    calculateAspectRatio 1920 1080 = "16:9" ∧
    calculateAspectRatio 1080 1080 = "1:1" ∧
    calculateAspectRatio 1080 1920 = "9:16" ∧
    calculateAspectRatio 640 480 = "4:3" := by
  have hmain : ∀ w h : ℕ, calculateAspectRatio w h = aspectRatioSpec w h := by
    intro w h
    simp only [calculateAspectRatio, aspectRatioSpec, aspectRatioTargets, firstMatch,
      jsGcd_eq_gcd]
    split_ifs <;> rfl
  refine ⟨hmain, ?_, ?_, ?_, ?_⟩ <;>
    rw [hmain] <;>
    norm_num [aspectRatioSpec, aspectRatioTargets, firstMatch, abs_lt]

theorem pollLoop_skip (poll : ℕ → StylizeResultResponse) (intervalMs fuel k : ℕ)
    (h : isTerminalStatus (poll k).status = false) :
    pollLoop poll intervalMs (fuel + 1) k = pollLoop poll intervalMs fuel (k + 1) := by
  simp [pollLoop, h]

theorem pollLoop_hit (poll : ℕ → StylizeResultResponse) (intervalMs fuel k : ℕ)
    (h : isTerminalStatus (poll k).status = true) :
    pollLoop poll intervalMs (fuel + 1) k =
      PollRun.mk (Except.ok (poll k)) (k + 1) (k * intervalMs) := by
  simp [pollLoop, h]

theorem pollLoop_terminal (poll : ℕ → StylizeResultResponse) (intervalMs : ℕ) :
    ∀ (j fuel k : ℕ), j < fuel →
      (∀ m, m < j → isTerminalStatus (poll (k + m)).status = false) →
      isTerminalStatus (poll (k + j)).status = true →
      pollLoop poll intervalMs fuel k =
        PollRun.mk (Except.ok (poll (k + j))) (k + j + 1) ((k + j) * intervalMs) := by
  intro j
  induction j with
  | zero =>
    intro fuel k hj _ hterm
    obtain ⟨f, rfl⟩ : ∃ f, fuel = f + 1 := ⟨fuel - 1, by omega⟩
    simpa using pollLoop_hit poll intervalMs f k (by simpa using hterm)
  | succ j ih =>
    intro fuel k hj hnt hterm
    obtain ⟨f, rfl⟩ : ∃ f, fuel = f + 1 := ⟨fuel - 1, by omega⟩
    rw [pollLoop_skip poll intervalMs f k (by simpa using hnt 0 (by omega))]
    have h1 : ∀ m, m < j → isTerminalStatus (poll (k + 1 + m)).status = false := by
      intro m hm
      have hx := hnt (m + 1) (by omega)
      have harith : k + (m + 1) = k + 1 + m := by omega
      rwa [harith] at hx
    have h2 : isTerminalStatus (poll (k + 1 + j)).status = true := by
      have harith : k + (j + 1) = k + 1 + j := by omega
      rwa [harith] at hterm
    rw [ih f (k + 1) (by omega) h1 h2]
    have harith : k + 1 + j = k + (j + 1) := by omega
    rw [harith]

theorem pollLoop_timeout (poll : ℕ → StylizeResultResponse) (intervalMs : ℕ) :
    ∀ (fuel k : ℕ), (∀ m, m < fuel → isTerminalStatus (poll (k + m)).status = false) →
      pollLoop poll intervalMs fuel k =
        PollRun.mk (Except.error pollTimeoutMsg) (k + fuel) ((k + fuel) * intervalMs) := by
  intro fuel
  induction fuel with
  | zero => intro k _; simp [pollLoop]
  | succ f ih =>
    intro k h
    rw [pollLoop_skip poll intervalMs f k (by simpa using h 0 (by omega))]
    rw [ih (k + 1) (fun m hm => by
      have hx := h (m + 1) (by omega)
      have harith : k + (m + 1) = k + 1 + m := by omega
      rwa [harith] at hx)]
    have harith : k + 1 + f = k + (f + 1) := by omega
    rw [harith]

theorem pollLoop_bounds (poll : ℕ → StylizeResultResponse) (intervalMs : ℕ) :
    ∀ (fuel k : ℕ), (pollLoop poll intervalMs fuel k).polls ≤ k + fuel ∧
      (pollLoop poll intervalMs fuel k).sleepMs ≤ (k + fuel) * intervalMs := by
  intro fuel
  induction fuel with
  | zero => intro k; simp [pollLoop]
  | succ f ih =>
    intro k
    by_cases h : isTerminalStatus (poll k).status = true
    · rw [pollLoop_hit poll intervalMs f k h]
      constructor
      · show k + 1 ≤ k + (f + 1)
        omega
      · show k * intervalMs ≤ (k + (f + 1)) * intervalMs
        exact Nat.mul_le_mul_right _ (by omega)
    · rw [pollLoop_skip poll intervalMs f k (by simpa using h)]
      refine ⟨le_trans (ih (k + 1)).1 (by omega), ?_⟩
      exact le_trans (ih (k + 1)).2 (Nat.mul_le_mul_right _ (by omega))

/-- Claim C4: pollStylizeResult returns the first terminal poll result and
issues no further polls after it; when every poll is non-terminal it fails
with the timeout error after exactly maxAttempts polls, and both the poll
count and the total sleep time are capped by maxAttempts (times
intervalMs). -/
theorem pollStylizeResult_correct (poll : ℕ → StylizeResultResponse)
    (maxAttempts intervalMs : ℕ) :
    (∀ k, k < maxAttempts →
      (∀ j, j < k → isTerminalStatus (poll j).status = false) →
      isTerminalStatus (poll k).status = true →
      pollStylizeResult poll maxAttempts intervalMs =
        PollRun.mk (Except.ok (poll k)) (k + 1) (k * intervalMs)) ∧
    ((∀ j, j < maxAttempts → isTerminalStatus (poll j).status = false) →
      pollStylizeResult poll maxAttempts intervalMs =
        PollRun.mk (Except.error pollTimeoutMsg) maxAttempts (maxAttempts * intervalMs)) ∧
    (pollStylizeResult poll maxAttempts intervalMs).polls ≤ maxAttempts ∧
    (pollStylizeResult poll maxAttempts intervalMs).sleepMs ≤ maxAttempts * intervalMs := by
  refine ⟨?_, ?_, ?_, ?_⟩
  · intro k hk hpre hterm
    have hx := pollLoop_terminal poll intervalMs k maxAttempts 0 hk
      (fun m hm => by simpa using hpre m hm) (by simpa using hterm)
    simpa [pollStylizeResult] using hx
  · intro h
    have hx := pollLoop_timeout poll intervalMs maxAttempts 0
      (fun m hm => by simpa using h m hm)
    simpa [pollStylizeResult] using hx
  · simpa [pollStylizeResult] using (pollLoop_bounds poll intervalMs maxAttempts 0).1
  · simpa [pollStylizeResult] using (pollLoop_bounds poll intervalMs maxAttempts 0).2

theorem pollStylizeResult_correct_witness :
    pollStylizeResult pollWitnessStream 3 5 =
      PollRun.mk
        (Except.ok (StylizeResultResponse.mk "completed" (some "https://x/y.png") none))
        2 5 := by
  have h := (pollStylizeResult_correct pollWitnessStream 3 5).1 1 (by omega)
    (by decide) (by decide)
  simpa [pollWitnessStream] using h

/-- Claim C5: a submit response reporting synchronous completion is
surfaced as an already-terminal task {requestId "abc", status "completed",
resultUrl "https://x/y.png"}, and the stylize route answers with that
result directly, issuing zero poll requests for the task. -/
theorem submitStylizeTask_sync_completion :
    submitStylizeTask 200 scenarioEResponse =
      Except.ok (StylizeTaskResponse.mk "abc" "completed" (some "https://x/y.png") none) ∧
    stylizeRoutePost (submitStylizeTask 200 scenarioEResponse) "https://blob/frame.jpg" =
      (StylizeRouteResponse.completedNow "abc" "https://x/y.png" "https://blob/frame.jpg",
       0) := by
  constructor <;> rfl

theorem strTruthy_jsOr (a b : Option String) :
    strTruthy (jsOr a b) = (strTruthy a || strTruthy b) := by
  by_cases h : strTruthy a = true
  · simp [jsOr, h]
  · have hf : strTruthy a = false := by simpa using h
    simp [jsOr, hf]

theorem strTruthy_none : strTruthy none = false := rfl

theorem strTruthy_extractRequestId (r : WaveResponse) :
    strTruthy (extractRequestId r) = anyRecognizedId r := by
  obtain ⟨data, f1, f2, f3, f4, f5⟩ := r
  cases data with
  | none =>
    simp [extractRequestId, anyRecognizedId, strTruthy_jsOr, strTruthy_none,
      Bool.or_assoc]
  | some d =>
    by_cases h : strTruthy d.id = true
    · simp [extractRequestId, anyRecognizedId, h]
    · have hf : strTruthy d.id = false := by simpa using h
      simp [extractRequestId, anyRecognizedId, hf, strTruthy_jsOr, Bool.or_assoc]

theorem extractRequestId_mem (r : WaveResponse) (s : String)
    (h : extractRequestId r = some s) :
    r.data.bind (fun d => d.id) = some s ∨ r.request_id = some s ∨ r.id = some s ∨
    r.requestId = some s ∨ r.prediction_id = some s ∨ r.predictionId = some s := by
  obtain ⟨data, f1, f2, f3, f4, f5⟩ := r
  cases data with
  | none =>
    simp only [extractRequestId, jsOr] at h
    split_ifs at h <;> simp_all
  | some d =>
    simp only [extractRequestId, jsOr] at h
    split_ifs at h <;> simp_all

theorem jsOr3_mem (f1 f2 f3 : Option String) (s : String)
    (h : jsOr f1 (jsOr f2 f3) = some s) :
    f1 = some s ∨ f2 = some s ∨ f3 = some s := by
  simp only [jsOr] at h
  split_ifs at h <;> simp_all

theorem submit_noId (resp : WaveResponse) (h : anyRecognizedId resp = false) :
    submitStylizeTask 200 resp = Except.error "No requestId returned from Wavespeed API" := by
  have hx : strTruthy (extractRequestId resp) = false := by
    rw [strTruthy_extractRequestId]; exact h
  unfold submitStylizeTask
  rw [if_neg (by omega)]
  cases hE : extractRequestId resp with
  | none => rfl
  | some s =>
    rw [hE] at hx
    have hs : s.isEmpty = true := by simpa [strTruthy] using hx
    simp [hs]

theorem submitV2_noId (resp : WaveResponse) (h : anyRecognizedId resp = false) :
    submitStylizeTaskV2 200 resp = Except.error "No requestId returned from Wavespeed API" := by
  have hx : strTruthy (jsOr resp.request_id (jsOr resp.id resp.requestId)) = false := by
    simp only [anyRecognizedId, Bool.or_eq_false_iff] at h
    simp [strTruthy_jsOr, h.1.1.1.1.2, h.1.1.1.2, h.1.1.2]
  unfold submitStylizeTaskV2
  rw [if_neg (by omega)]
  cases hE : jsOr resp.request_id (jsOr resp.id resp.requestId) with
  | none => rfl
  | some s =>
    rw [hE] at hx
    have hs : s.isEmpty = true := by simpa [strTruthy] using hx
    simp [hs]

/-- Claim C6: a non-2xx submit response raises an error in both
submitStylizeTask variants; when no recognized job-id field holds a truthy
value, the 2xx path also raises an error; and whenever a task is returned
its requestId is a non-empty value taken verbatim from one of the
recognized response fields — never fabricated. -/
theorem submitStylizeTask_error_propagation :
    (∀ (code : ℕ) (resp : WaveResponse), code < 200 ∨ 300 ≤ code →
      submitStylizeTask code resp =
        Except.error ("Wavespeed API error: " ++ toString code) ∧
      submitStylizeTaskV2 code resp =
        Except.error ("Wavespeed API error: " ++ toString code)) ∧
    (∀ resp : WaveResponse, anyRecognizedId resp = false →
      submitStylizeTask 200 resp =
        Except.error "No requestId returned from Wavespeed API" ∧
      submitStylizeTaskV2 200 resp =
        Except.error "No requestId returned from Wavespeed API") ∧
    (∀ (code : ℕ) (resp : WaveResponse) (t : StylizeTaskResponse),
      submitStylizeTask code resp = Except.ok t →
      t.requestId ≠ "" ∧
      (resp.data.bind (fun d => d.id) = some t.requestId ∨
       resp.request_id = some t.requestId ∨ resp.id = some t.requestId ∨
       resp.requestId = some t.requestId ∨ resp.prediction_id = some t.requestId ∨
       resp.predictionId = some t.requestId)) ∧
    (∀ (code : ℕ) (resp : WaveResponse) (t : StylizeTaskResponse),
      submitStylizeTaskV2 code resp = Except.ok t →
      t.requestId ≠ "" ∧
      (resp.request_id = some t.requestId ∨ resp.id = some t.requestId ∨
       resp.requestId = some t.requestId)) := by
  refine ⟨?_, ?_, ?_, ?_⟩
  · intro code resp hcode
    constructor
    · unfold submitStylizeTask; rw [if_pos hcode]
    · unfold submitStylizeTaskV2; rw [if_pos hcode]
  · intro resp h
    exact ⟨submit_noId resp h, submitV2_noId resp h⟩
  · intro code resp t h
    unfold submitStylizeTask at h
    by_cases hcode : code < 200 ∨ 300 ≤ code
    · rw [if_pos hcode] at h; exact absurd h (by simp)
    · rw [if_neg hcode] at h
      cases hE : extractRequestId resp with
      | none => rw [hE] at h; exact absurd h (by simp)
      | some s =>
        rw [hE] at h
        by_cases hs : s.isEmpty = true
        · simp [hs] at h
        · simp only [hs] at h
          simp only [if_false, Bool.false_eq_true, Except.ok.injEq] at h
          subst h
          refine ⟨?_, extractRequestId_mem resp s hE⟩
          intro hcon
          have hcon2 : s = "" := hcon
          subst hcon2
          exact hs rfl
  · intro code resp t h
    unfold submitStylizeTaskV2 at h
    by_cases hcode : code < 200 ∨ 300 ≤ code
    · rw [if_pos hcode] at h; exact absurd h (by simp)
    · rw [if_neg hcode] at h
      cases hE : jsOr resp.request_id (jsOr resp.id resp.requestId) with
      | none => rw [hE] at h; exact absurd h (by simp)
      | some s =>
        rw [hE] at h
        by_cases hs : s.isEmpty = true
        · simp [hs] at h
        · simp only [hs] at h
          simp only [if_false, Bool.false_eq_true, Except.ok.injEq] at h
          subst h
          refine ⟨?_, jsOr3_mem _ _ _ s hE⟩
          intro hcon
          have hcon2 : s = "" := hcon
          subst hcon2
          exact hs rfl

theorem submitStylizeTask_error_propagation_witness :
    submitStylizeTask 404 emptyWaveResponse =
      Except.error ("Wavespeed API error: " ++ toString 404) ∧
    submitStylizeTaskV2 200 emptyWaveResponse =
      Except.error "No requestId returned from Wavespeed API" :=
  ⟨(submitStylizeTask_error_propagation.1 404 emptyWaveResponse (by omega)).1,
   (submitStylizeTask_error_propagation.2.1 emptyWaveResponse (by decide)).2⟩

/-- Claim C7 (code bug): after the try block's `request.json()` has
consumed the body, the catch handler's re-read always falls back to `{}`,
so for every table state the handler leaves every record untouched and
answers 500 — the record is never marked failed, contradicting the claim
(and the spec's stated intent). In particular the record "abc" stays
"processing" at the failing input; had the body still been readable, the
same handler would have marked it failed, which is exactly the intended
branch the consumed body makes unreachable. -/
theorem processCatchHandler_body_consumed :
    (∀ db : List VideoRecord, processCatchHandler BodyState.consumed db = (db, 500)) ∧
    processCatchHandler BodyState.consumed witnessDb = (witnessDb, 500) ∧
    witnessDb.map (fun v => v.status) = ["processing"] ∧
    processCatchHandler (BodyState.unread (some "abc")) witnessDb =
      ([VideoRecord.mk "abc" "failed" none none], 500) :=
  ⟨fun _ => rfl, rfl, rfl, rfl⟩

/-- Claim C8 counterexample: a file declared `application/octet-stream`
whose name carries no .heic/.heif extension is accepted by the upload
route, contradicting the claim that octet-stream is accepted only under
the extension fallback. -/
theorem uploadPost_octetStream_counterexample :
    uploadPost (some (UploadFile.mk "clip.bin" "application/octet-stream" 1))
      "https://blob/a" "https://blob/a?download=1" "vid1" =
      Except.ok (UploadOk.mk "https://blob/a" "https://blob/a?download=1" "vid1") := by
  rfl

/-- Claim C8 (amended): POST /upload returns 400 when the file is missing,
larger than 500MB, or when its declared type is outside
{mp4, quicktime, webm, heic, heif, octet-stream} and the filename lacks a
.heic/.heif extension; a file is accepted whenever the declared type is in
that list (octet-stream included, with any filename) or the filename ends
in .heic/.heif (with any declared type), and success returns
{url, downloadUrl, videoId}. -/
theorem uploadPost_validation (u d v : String) :
    uploadPost none u d v = Except.error (400, "No file provided") ∧
    (∀ f : UploadFile, 500 * 1024 * 1024 < f.size →
      uploadPost (some f) u d v =
        Except.error (400, "File too large. Maximum size is 500MB")) ∧
    (∀ f : UploadFile, f.size ≤ 500 * 1024 * 1024 →
      allowedTypes.contains f.type = false → isHeicExt f.name = false →
      uploadPost (some f) u d v =
        Except.error
          (400, "Invalid file type. Supported: MP4, MOV, WebM, HEIC (iOS Live Photos)")) ∧
    (∀ f : UploadFile, f.size ≤ 500 * 1024 * 1024 →
      (allowedTypes.contains f.type = true ∨ isHeicExt f.name = true) →
      uploadPost (some f) u d v = Except.ok (UploadOk.mk u d v)) := by
  refine ⟨rfl, ?_, ?_, ?_⟩
  · intro f hf
    simp [uploadPost, hf]
  · intro f hf ht hn
    have h1 : ¬ (500 * 1024 * 1024 < f.size) := not_lt.mpr hf
    have ht2 : f.type ∉ allowedTypes := by simpa using ht
    simp [uploadPost, h1, ht2, hn]
  · intro f hf hok
    have h1 : ¬ (500 * 1024 * 1024 < f.size) := not_lt.mpr hf
    simp [uploadPost, h1]
    intro hcon
    rcases hok with hc | hc
    · have hmem : f.type ∈ allowedTypes := by simpa using hc
      exact absurd hmem hcon
    · exact hc

theorem uploadPost_validation_witness :
    uploadPost (some (UploadFile.mk "movie.mp4" "video/mp4" 10)) "u" "d" "v" =
      Except.ok (UploadOk.mk "u" "d" "v") :=
  (uploadPost_validation "u" "d" "v").2.2.2 (UploadFile.mk "movie.mp4" "video/mp4" 10)
    (by norm_num) (Or.inl (by rfl))

/-- Claim C9: the status notifier derives progress deterministically from
status (uploaded gives 10, processing gives 50, completed gives 100, any
other status gives 0), and a notifier step clears the sampling timer and
closes the channel exactly when the status is terminal, when the record is
missing (emitting the error event first), or when the abort signal has
fired (emitting nothing). -/
theorem notifier_correct :
    (statusProgress "uploaded" = 10 ∧ statusProgress "processing" = 50 ∧
     statusProgress "completed" = 100) ∧
    (∀ s, s ≠ "uploaded" → s ≠ "processing" → s ≠ "completed" →
      statusProgress s = 0) ∧
    (∀ v : VideoRecord, notifierStep false (some v) =
      ([SseEvent.update v.id v.status (statusProgress v.status) v.coverUrl v.processedUrl],
       v.status = "completed" || v.status = "failed")) ∧
    notifierStep false none = ([SseEvent.errMsg "Video not found"], true) ∧
    (∀ lookup, notifierStep true lookup = ([], true)) ∧
    (∀ (aborted : Bool) (lookup : Option VideoRecord),
      (notifierStep aborted lookup).2 = true ↔
        (aborted = true ∨ lookup = none ∨
         ∃ v, lookup = some v ∧ (v.status = "completed" ∨ v.status = "failed"))) := by
  refine ⟨by refine ⟨rfl, rfl, rfl⟩, ?_, ?_, rfl, ?_, ?_⟩
  · intro s h1 h2 h3
    simp [statusProgress, h1, h2, h3]
  · intro v
    rfl
  · intro lookup
    rfl
  · intro aborted lookup
    cases aborted with
    | true => simp [notifierStep]
    | false =>
      cases lookup with
      | none => simp [notifierStep, notifierTick]
      | some v => simp [notifierStep, notifierTick]

theorem notifier_correct_witness : statusProgress "failed" = 0 :=
  notifier_correct.2.1 "failed" (by decide) (by decide) (by decide)

/-- Claim C10: every getRemainingCalls result lies in [0, 100]: for a
record dated today it is max(0, 100 - count); for a record dated another
day, and when the counting backend is unreachable (or localStorage is
empty/unreadable), it is the full limit 100 — never negative. -/
theorem getRemainingCalls_range :
    (∀ (b : Bool) (store : Option (String × ℕ)) (today : String),
      0 ≤ getRemainingCallsKV b store today ∧ getRemainingCallsKV b store today ≤ 100) ∧
    (∀ (stored : Option ApiCallRecord) (today : String),
      0 ≤ getRemainingCallsLS stored today ∧ getRemainingCallsLS stored today ≤ 100) ∧
    (∀ (today : String) (n : ℕ),
      getRemainingCallsKV true (some (today, n)) today = max 0 (100 - (n : ℤ)) ∧
      getRemainingCallsLS (some (ApiCallRecord.mk today n)) today =
        max 0 (100 - (n : ℤ))) ∧
    (∀ (d today : String) (n : ℕ), d ≠ today →
      getRemainingCallsKV true (some (d, n)) today = 100 ∧
      getRemainingCallsLS (some (ApiCallRecord.mk d n)) today = 100) ∧
    (∀ (store : Option (String × ℕ)) (today : String),
      getRemainingCallsKV false store today = 100) ∧
    (∀ today : String, getRemainingCallsLS none today = 100) := by
  refine ⟨?_, ?_, ?_, ?_, ?_, ?_⟩
  · intro b store today
    cases b with
    | false => exact ⟨by norm_num [getRemainingCallsKV], by norm_num [getRemainingCallsKV]⟩
    | true =>
      refine ⟨le_max_left _ _, ?_⟩
      show max 0 (100 - ((kvLookupToday store today).getD 0 : ℤ)) ≤ 100
      exact max_le (by norm_num) (by omega)
  · intro stored today
    rw [getRemainingCallsLS]
    by_cases hd : (getRecordLS stored today).date ≠ today
    · rw [if_pos hd]; norm_num
    · rw [if_neg hd]
      exact ⟨le_max_left _ _, max_le (by norm_num) (by omega)⟩
  · intro today n
    constructor
    · simp [getRemainingCallsKV, kvLookupToday]
    · simp [getRemainingCallsLS, getRecordLS]
  · intro d today n h
    constructor
    · simp [getRemainingCallsKV, kvLookupToday, h]
    · simp [getRemainingCallsLS, getRecordLS, h]
  · intro store today
    norm_num [getRemainingCallsKV]
  · intro today
    simp [getRemainingCallsLS, getRecordLS]

theorem getRemainingCalls_range_witness :
    getRemainingCallsKV true (some ("2026-10-11", 40)) "2026-10-12" = 100 ∧
    getRemainingCallsLS (some (ApiCallRecord.mk "2026-10-11" 40)) "2026-10-12" = 100 :=
  getRemainingCalls_range.2.2.2.1 "2026-10-11" "2026-10-12" 40 (by decide)

theorem coverTick_countP_wait (cf i : ℕ) : (coverTick cf i).countP isWaitEv = 1 := by
  by_cases h : (i : ℚ) < 30 * (3 / 10) <;> simp [coverTick, h, isWaitEv]

theorem coverTick_countP_draw (cf i : ℕ) : (coverTick cf i).countP isDrawCoverEv = 1 := by
  by_cases h : (i : ℚ) < 30 * (3 / 10) <;> simp [coverTick, h, isDrawCoverEv]

theorem phase1_countP_wait (c : ℚ) : (phase1Trace c).countP isWaitEv = coverFrames c := by
  simp [phase1Trace, List.countP_flatten, List.map_map, Function.comp_def,
    coverTick_countP_wait]

theorem phase1_countP_draw (c : ℚ) :
    (phase1Trace c).countP isDrawCoverEv = coverFrames c := by
  simp [phase1Trace, List.countP_flatten, List.map_map, Function.comp_def,
    coverTick_countP_draw]

/-- Claim C2: phase 1 of the compose run performs exactly
floor(coverHoldSeconds × 30) paced ticks before phase 2 begins — each tick
draws the cover full-frame and waits 1000/30 ms — and with
coverHoldSeconds = 1.5 the tick count is exactly 45. -/
theorem phase1_tick_count (c : ℚ) :
    (phase1Trace c).countP isWaitEv = (⌊c * 30⌋).toNat ∧
    (phase1Trace c).countP isDrawCoverEv = (⌊c * 30⌋).toNat ∧
    (∀ e ∈ phase1Trace c, isWaitEv e = true → e = ComposeEvent.wait (1000 / 30)) ∧
    (⌊(3 / 2 : ℚ) * 30⌋).toNat = 45 := by
  refine ⟨phase1_countP_wait c, phase1_countP_draw c, ?_,
    by rw [show ⌊(3 / 2 : ℚ) * 30⌋ = 45 by norm_num]; rfl⟩
  intro e he hw
  simp only [phase1Trace, List.mem_flatten, List.mem_map] at he
  obtain ⟨l, ⟨i, hi, rfl⟩, hel⟩ := he
  by_cases hfade : (i : ℚ) < 30 * (3 / 10)
  · simp [coverTick, hfade] at hel
    rcases hel with rfl | rfl | rfl | rfl
    · simp [isWaitEv] at hw
    · simp [isWaitEv] at hw
    · rfl
    · simp [isWaitEv] at hw
  · simp [coverTick, hfade] at hel
    rcases hel with rfl | rfl | rfl
    · simp [isWaitEv] at hw
    · rfl
    · simp [isWaitEv] at hw

theorem phase1_tick_count_witness : (phase1Trace (3 / 2)).countP isWaitEv = 45 := by
  have h := phase1_tick_count (3 / 2)
  rw [h.1, h.2.2.2]

theorem progressValues_coverTick (cf i : ℕ) :
    (coverTick cf i).filterMap progOf = [30 + ((i : ℚ) / (cf : ℚ)) * 20] := by
  by_cases h : (i : ℚ) < 30 * (3 / 10) <;> simp [coverTick, h, progOf]

theorem progressValues_transitionTick (i : ℕ) :
    (transitionTick i).filterMap progOf = [50 + ((i : ℚ) / 15) * 10] := by
  simp [transitionTick, progOf]

theorem progressValues_playbackTick (d t : ℚ) :
    (playbackTick d t).filterMap progOf = [60 + (t / d) * 35] := by
  simp [playbackTick, progOf]

theorem flatten_map_singleton {α β : Type} (f : α → β) (l : List α) :
    (l.map (fun a => [f a])).flatten = l.map f := by
  induction l with
  | nil => rfl
  | cons a l ih => simp [ih]

theorem progressValues_phase1 (c : ℚ) :
    (phase1Trace c).filterMap progOf =
      (List.range (coverFrames c)).map
        (fun i : ℕ => 30 + ((i : ℚ) / (coverFrames c : ℚ)) * 20) := by
  rw [phase1Trace, List.filterMap_flatten, List.map_map]
  rw [show List.filterMap progOf ∘ coverTick (coverFrames c) =
      fun i : ℕ => [30 + ((i : ℚ) / (coverFrames c : ℚ)) * 20] from
    funext fun i => progressValues_coverTick (coverFrames c) i]
  exact flatten_map_singleton _ _

theorem progressValues_phase2 :
    phase2Trace.filterMap progOf =
      (List.range 15).map (fun i : ℕ => 50 + ((i : ℚ) / 15) * 10) := by
  rw [phase2Trace, List.filterMap_flatten, List.map_map]
  rw [show List.filterMap progOf ∘ transitionTick =
      fun i : ℕ => [50 + ((i : ℚ) / 15) * 10] from
    funext fun i => progressValues_transitionTick i]
  exact flatten_map_singleton _ _

theorem progressValues_phase3 (d : ℚ) (ts : List ℚ) :
    (phase3Trace d ts).filterMap progOf = ts.map (fun t => 60 + (t / d) * 35) := by
  rw [phase3Trace, List.filterMap_flatten, List.map_map]
  rw [show List.filterMap progOf ∘ playbackTick d =
      fun t => [60 + (t / d) * 35] from
    funext fun t => progressValues_playbackTick d t]
  exact flatten_map_singleton _ _

theorem progressValues_composeTrace (c d : ℚ) (ts : List ℚ) :
    progressValues (composeTrace c d ts) =
      [5, 10, 20, 30] ++
      (List.range (coverFrames c)).map
        (fun i : ℕ => 30 + ((i : ℚ) / (coverFrames c : ℚ)) * 20) ++
      [50] ++ (List.range 15).map (fun i : ℕ => 50 + ((i : ℚ) / 15) * 10) ++
      [60] ++ ts.map (fun t => 60 + (t / d) * 35) ++ [100] := by
  rw [progressValues, composeTrace]
  simp only [List.filterMap_append]
  rw [progressValues_phase1, progressValues_phase2, progressValues_phase3]
  rfl

theorem coverSeg_bounds (cf : ℕ) (x : ℚ)
    (hx : x ∈ (List.range cf).map (fun i : ℕ => 30 + ((i : ℚ) / (cf : ℚ)) * 20)) :
    30 ≤ x ∧ x < 50 := by
  rw [List.mem_map] at hx
  obtain ⟨i, hi, rfl⟩ := hx
  rw [List.mem_range] at hi
  have hcf : 0 < (cf : ℚ) := by
    have hp : 0 < cf := by omega
    exact_mod_cast hp
  have h0 : 0 ≤ (i : ℚ) / (cf : ℚ) := div_nonneg (Nat.cast_nonneg i) hcf.le
  have h1 : (i : ℚ) / (cf : ℚ) < 1 := by
    rw [div_lt_one hcf]
    exact_mod_cast hi
  constructor <;> linarith

theorem transSeg_bounds (x : ℚ)
    (hx : x ∈ (List.range 15).map (fun i : ℕ => 50 + ((i : ℚ) / 15) * 10)) :
    50 ≤ x ∧ x < 60 := by
  rw [List.mem_map] at hx
  obtain ⟨i, hi, rfl⟩ := hx
  rw [List.mem_range] at hi
  have h0 : 0 ≤ (i : ℚ) / 15 := div_nonneg (Nat.cast_nonneg i) (by norm_num)
  have h1 : (i : ℚ) / 15 < 1 := by
    rw [div_lt_one (by norm_num)]
    exact_mod_cast hi
  constructor <;> linarith

theorem playSeg_bounds (d : ℚ) (ts : List ℚ) (hd : 0 < d)
    (hmem : ∀ t ∈ ts, 0 ≤ t ∧ t ≤ d) (x : ℚ)
    (hx : x ∈ ts.map (fun t => 60 + (t / d) * 35)) : 60 ≤ x ∧ x ≤ 95 := by
  rw [List.mem_map] at hx
  obtain ⟨t, ht, rfl⟩ := hx
  obtain ⟨h0, h1⟩ := hmem t ht
  have q0 : 0 ≤ t / d := div_nonneg h0 hd.le
  have q1 : t / d ≤ 1 := by
    rw [div_le_one hd]
    exact h1
  constructor <;> linarith

theorem coverSeg_pairwise (cf : ℕ) :
    List.Pairwise (· ≤ ·)
      ((List.range cf).map (fun i : ℕ => 30 + ((i : ℚ) / (cf : ℚ)) * 20)) := by
  rw [List.pairwise_map]
  refine (List.pairwise_lt_range cf).imp ?_
  intro a b hab
  have hq : (a : ℚ) / (cf : ℚ) ≤ (b : ℚ) / (cf : ℚ) := by
    rcases Nat.eq_zero_or_pos cf with h | h
    · subst h; simp
    · exact (div_le_div_iff_of_pos_right (by exact_mod_cast h)).mpr (by exact_mod_cast hab.le)
  linarith

theorem transSeg_pairwise :
    List.Pairwise (· ≤ ·)
      ((List.range 15).map (fun i : ℕ => 50 + ((i : ℚ) / 15) * 10)) := by
  rw [List.pairwise_map]
  refine (List.pairwise_lt_range 15).imp ?_
  intro a b hab
  have hq : (a : ℚ) / 15 ≤ (b : ℚ) / 15 :=
    (div_le_div_iff_of_pos_right (by norm_num)).mpr (by exact_mod_cast hab.le)
  linarith

theorem playSeg_pairwise (d : ℚ) (ts : List ℚ) (hd : 0 < d)
    (hchain : List.Chain' (· ≤ ·) ts) :
    List.Pairwise (· ≤ ·) (ts.map (fun t => 60 + (t / d) * 35)) := by
  rw [List.pairwise_map]
  refine (List.chain'_iff_pairwise.mp hchain).imp ?_
  intro a b hab
  have hq : a / d ≤ b / d := (div_le_div_iff_of_pos_right hd).mpr hab
  linarith

theorem getLast?_append_last {α : Type} {x : α} (l₁ l₂ : List α)
    (h : l₂.getLast? = some x) : (l₁ ++ l₂).getLast? = some x := by
  simp [List.getLast?_append, h]

theorem pairwise_le_append_of_bound {l₁ l₂ : List ℚ} (B : ℚ)
    (h1 : List.Pairwise (· ≤ ·) l₁) (h2 : List.Pairwise (· ≤ ·) l₂)
    (hb1 : ∀ a ∈ l₁, a ≤ B) (hb2 : ∀ b ∈ l₂, B ≤ b) :
    List.Pairwise (· ≤ ·) (l₁ ++ l₂) :=
  List.pairwise_append.mpr ⟨h1, h2, fun a ha b hb => le_trans (hb1 a ha) (hb2 b hb)⟩

/-- Claim C1: on every successfully resolving compose run the sequence of
values passed to onProgress is monotonically non-decreasing, and the final
reported value is exactly 100 (hypotheses: positive source duration,
non-decreasing currentTime samples within [0, duration]). -/
theorem compose_progress_monotone (c d : ℚ) (ts : List ℚ) (hd : 0 < d)
    (hchain : List.Chain' (· ≤ ·) ts)
    (hmem : ∀ t ∈ ts, 0 ≤ t ∧ t ≤ d) :
    List.Chain' (· ≤ ·) (progressValues (composeTrace c d ts)) ∧
    (progressValues (composeTrace c d ts)).getLast? = some 100 := by
  constructor
  · rw [progressValues_composeTrace, List.chain'_iff_pairwise]
    have hbPlay := playSeg_bounds d ts hd hmem
    have hP1 : List.Pairwise (· ≤ ·) (ts.map (fun t => 60 + (t / d) * 35) ++ [100]) :=
      pairwise_le_append_of_bound 100 (playSeg_pairwise d ts hd hchain) (by simp)
        (fun a ha => le_trans (hbPlay a ha).2 (by norm_num)) (by simp)
    have hlb1 : ∀ x ∈ ts.map (fun t => 60 + (t / d) * 35) ++ [100], 60 ≤ x := by
      intro x hx
      rcases List.mem_append.mp hx with h | h
      · exact (hbPlay x h).1
      · simp only [List.mem_singleton] at h
        subst h
        norm_num
    have hP2 : List.Pairwise (· ≤ ·)
        ([60] ++ (ts.map (fun t => 60 + (t / d) * 35) ++ [100])) :=
      pairwise_le_append_of_bound 60 (by simp) hP1 (by simp) hlb1
    have hlb2 : ∀ x ∈ [60] ++ (ts.map (fun t => 60 + (t / d) * 35) ++ [100]),
        (60 : ℚ) ≤ x := by
      intro x hx
      rcases List.mem_append.mp hx with h | h
      · simp only [List.mem_singleton] at h
        subst h
        norm_num
      · exact hlb1 x h
    have hP3 : List.Pairwise (· ≤ ·)
        ((List.range 15).map (fun i : ℕ => 50 + ((i : ℚ) / 15) * 10) ++
          ([60] ++ (ts.map (fun t => 60 + (t / d) * 35) ++ [100]))) :=
      pairwise_le_append_of_bound 60 transSeg_pairwise hP2
        (fun a ha => (transSeg_bounds a ha).2.le) hlb2
    have hlb3 : ∀ x ∈ (List.range 15).map (fun i : ℕ => 50 + ((i : ℚ) / 15) * 10) ++
        ([60] ++ (ts.map (fun t => 60 + (t / d) * 35) ++ [100])), (50 : ℚ) ≤ x := by
      intro x hx
      rcases List.mem_append.mp hx with h | h
      · exact (transSeg_bounds x h).1
      · linarith [hlb2 x h]
    have hP4 : List.Pairwise (· ≤ ·)
        ([50] ++ ((List.range 15).map (fun i : ℕ => 50 + ((i : ℚ) / 15) * 10) ++
          ([60] ++ (ts.map (fun t => 60 + (t / d) * 35) ++ [100])))) :=
      pairwise_le_append_of_bound 50 (by simp) hP3 (by simp) hlb3
    have hlb4 : ∀ x ∈ [50] ++ ((List.range 15).map (fun i : ℕ => 50 + ((i : ℚ) / 15) * 10) ++
        ([60] ++ (ts.map (fun t => 60 + (t / d) * 35) ++ [100]))), (50 : ℚ) ≤ x := by
      intro x hx
      rcases List.mem_append.mp hx with h | h
      · simp only [List.mem_singleton] at h
        subst h
        norm_num
      · exact hlb3 x h
    have hP5 : List.Pairwise (· ≤ ·)
        ((List.range (coverFrames c)).map
            (fun i : ℕ => 30 + ((i : ℚ) / (coverFrames c : ℚ)) * 20) ++
          ([50] ++ ((List.range 15).map (fun i : ℕ => 50 + ((i : ℚ) / 15) * 10) ++
            ([60] ++ (ts.map (fun t => 60 + (t / d) * 35) ++ [100]))))) :=
      pairwise_le_append_of_bound 50 (coverSeg_pairwise (coverFrames c)) hP4
        (fun a ha => (coverSeg_bounds (coverFrames c) a ha).2.le) hlb4
    have hlb5 : ∀ x ∈ (List.range (coverFrames c)).map
        (fun i : ℕ => 30 + ((i : ℚ) / (coverFrames c : ℚ)) * 20) ++
        ([50] ++ ((List.range 15).map (fun i : ℕ => 50 + ((i : ℚ) / 15) * 10) ++
          ([60] ++ (ts.map (fun t => 60 + (t / d) * 35) ++ [100])))), (30 : ℚ) ≤ x := by
      intro x hx
      rcases List.mem_append.mp hx with h | h
      · exact (coverSeg_bounds (coverFrames c) x h).1
      · linarith [hlb4 x h]
    have hP6 : List.Pairwise (· ≤ ·)
        ([5, 10, 20, 30] ++
          ((List.range (coverFrames c)).map
              (fun i : ℕ => 30 + ((i : ℚ) / (coverFrames c : ℚ)) * 20) ++
            ([50] ++ ((List.range 15).map (fun i : ℕ => 50 + ((i : ℚ) / 15) * 10) ++
              ([60] ++ (ts.map (fun t => 60 + (t / d) * 35) ++ [100])))))) :=
      pairwise_le_append_of_bound 30 (by decide) hP5
        (by
          intro a ha
          simp only [List.mem_cons, List.not_mem_nil, or_false] at ha
          rcases ha with rfl | rfl | rfl | rfl <;> norm_num) hlb5
    simpa [List.append_assoc] using hP6
  · rw [progressValues_composeTrace]
    exact getLast?_append_last _ _ (show ([(100 : ℚ)]).getLast? = some 100 from rfl)

theorem compose_progress_monotone_witness :
    List.Chain' (· ≤ ·) (progressValues (composeTrace (3 / 2) 5 [0, 1, 5])) ∧
    (progressValues (composeTrace (3 / 2) 5 [0, 1, 5])).getLast? = some 100 :=
  compose_progress_monotone (3 / 2) 5 [0, 1, 5] (by norm_num)
    (by norm_num [List.chain'_cons])
    (by intro t ht; simp only [List.mem_cons, List.not_mem_nil, or_false] at ht;
        rcases ht with rfl | rfl | rfl <;> norm_num)

end LivePhoto
